import Mathlib

/-!
Verification of the ReportBench evaluation toolkit.

Python strings are modelled as `List Char` (`Str`), pure functions as Lean
functions, fallible code as `Option`/`Except`-style results, the filesystem
of one report directory as an explicit record of file states, and the
randomness / LLM / HTTP boundaries as explicit input parameters.
-/

namespace ReportBench

/-- Python `str` is modelled as a list of characters. -/
abbrev Str := List Char

/-- First index (counting from `start`) at which `needle` occurs in `hay`,
as used by Python's `str.find` / the `in` operator. -/
def find_from (hay needle : Str) (start : Nat) : Option Nat :=
  match hay with
  | [] => if needle.isEmpty then some start else none
  | _ :: t => if needle.isPrefixOf hay then some start else find_from t needle (start + 1)

/-- Python `hay.find(needle)`: first occurrence index, `-1` if absent. -/
def str_find (hay needle : Str) : Int :=
  match find_from hay needle 0 with
  | some i => (i : Int)
  | none => -1

/-- Python `needle in hay` substring containment. -/
def contains_sub (hay needle : Str) : Bool :=
  (find_from hay needle 0).isSome

/-- Python truthiness of `s.strip()`: true iff `s` has a non-whitespace char. -/
def py_nonblank (s : Str) : Bool :=
  s.any (fun c => !c.isWhitespace)

/-! ## `utils.split_text_by_headers` (src/utils.py lines 290-388)

The Python function receives `text`, computes `lines = text.split('\n')`,
assembles blocks of lines, joins each block with `'\n'`, and finally asserts
that joining all blocks with `'\n'` reconstructs `text`.  The assertion
failure (`AssertionError`) is modelled by returning `none`. -/

/-- Python `text.split('\n')`. -/
def splitLines : Str → List Str
  | [] => [[]]
  | c :: cs =>
    match splitLines cs with
    | [] => [[c]]
    | l :: ls => if c = '\n' then [] :: l :: ls else (c :: l) :: ls

/-- Python `'\n'.join(parts)`. -/
def joinNL : List Str → Str
  | [] => []
  | [l] => l
  | l :: ls => l ++ '\n' :: joinNL ls

/-- The header test of the source: `line.startswith('#') and
(line.startswith('# ') or line.startswith('## ') or line.startswith('### '))`. -/
def is_header_line (l : Str) : Bool :=
  (['#'].isPrefixOf l) &&
    (("# ".toList.isPrefixOf l) || ("## ".toList.isPrefixOf l) || ("### ".toList.isPrefixOf l))

/-- Indices of header lines (`header_indices` in the source). -/
def header_indices (lines : List Str) : List Nat :=
  (List.range lines.length).filter (fun i => is_header_line (lines.getD i []))

/-- The no-header fallback loop of `split_text_by_headers`: accumulate lines
into the current block, flushing when adding a line would exceed `max_size`
and the current block is nonempty. -/
def chunk_no_headers (max_size : Nat) : List Str → List Str → Nat → List (List Str)
  | [], cur, _ => if cur.isEmpty then [] else [cur]
  | line :: rest, cur, size =>
    if size + (line.length + 1) > max_size && !cur.isEmpty then
      cur :: chunk_no_headers max_size rest [line] (line.length + 1)
    else
      chunk_no_headers max_size rest (cur ++ [line]) (size + (line.length + 1))

/-- Python `lines[a:b]` for `a ≤ b` within range. -/
def slice_lines (a b : Nat) (lines : List Str) : List Str :=
  (lines.drop a).take (b - a)

/-- The header-indexed assembly loop of `split_text_by_headers`.  The first
argument is the tail of `all_indices` (everything after the leading `0`);
the second is `all_indices[i-1]`, the third is `current_start`.  Returns the
appended blocks together with the final `current_start`. -/
def header_loop (lines : List Str) (max_size : Nat) :
    List Nat → Nat → Nat → (List Str × Nat)
  | [], _, cs => ([], cs)
  | e :: rest, prev, cs =>
    let candidate := slice_lines cs e lines
    let ctext := joinNL candidate
    if ctext.length > max_size then
      if cs == prev then
        let r := header_loop lines max_size rest e e
        (ctext :: r.1, r.2)
      else
        let prevPart := slice_lines cs prev lines
        let curText := joinNL (slice_lines prev e lines)
        let r := header_loop lines max_size rest e e
        ((if prevPart.isEmpty then [curText] else [joinNL prevPart, curText]) ++ r.1, r.2)
    else
      if rest.isEmpty then
        (if candidate.isEmpty then ([], e) else ([ctext], e))
      else
        header_loop lines max_size rest e cs

/-- `utils.split_text_by_headers`.  Returns `none` exactly when the final
reconstruction assertion of the source fires. -/
def split_text_by_headers (text : Str) (max_size : Nat) : Option (List Str) :=
  let lines := splitLines text
  let hs := header_indices lines
  if hs.isEmpty then
    let blocks := (chunk_no_headers max_size lines [] 0).map joinNL
    if joinNL blocks = text then some blocks else none
  else
    let r := header_loop lines max_size (hs ++ [lines.length]) 0 0
    let blocks := r.1 ++
      (if r.2 < lines.length && !((lines.drop r.2).isEmpty) then [joinNL (lines.drop r.2)] else [])
    let blocks := blocks.filter py_nonblank
    if joinNL blocks = text then some blocks else none

/-! ### Lemmas about line splitting and joining -/

theorem splitLines_ne_nil (s : Str) : splitLines s ≠ [] := by
  cases s with
  | nil => simp [splitLines]
  | cons c cs =>
    simp only [splitLines]
    rcases splitLines cs with _ | ⟨l, ls⟩
    · simp
    · dsimp only
      split <;> simp

theorem joinNL_splitLines (s : Str) : joinNL (splitLines s) = s := by
  induction s with
  | nil => rfl
  | cons c cs ih =>
    simp only [splitLines]
    rcases h : splitLines cs with _ | ⟨l, ls⟩
    · exact absurd h (splitLines_ne_nil cs)
    · rw [h] at ih
      dsimp only
      by_cases hc : c = '\n'
      · subst hc
        rw [if_pos rfl]
        simpa [joinNL] using ih
      · rw [if_neg hc]
        rcases ls with _ | ⟨l', ls'⟩
        · simp only [joinNL] at ih ⊢
          rw [ih]
        · simp only [joinNL] at ih ⊢
          rw [List.cons_append, ih]

theorem joinNL_cons (l : Str) (ls : List Str) :
    joinNL (l :: ls) = l ++ (if ls.isEmpty then [] else '\n' :: joinNL ls) := by
  rcases ls with _ | ⟨l', ls'⟩ <;> simp [joinNL]

theorem joinNL_append (xs ys : List Str) (hx : xs ≠ []) (hy : ys ≠ []) :
    joinNL (xs ++ ys) = joinNL xs ++ '\n' :: joinNL ys := by
  induction xs with
  | nil => exact absurd rfl hx
  | cons x xs ih =>
    rcases xs with _ | ⟨x', xs'⟩
    · rcases ys with _ | ⟨y, ys'⟩
      · exact absurd rfl hy
      · simp [joinNL, joinNL_cons]
    · have hrec := ih (by simp)
      simp only [List.cons_append] at hrec ⊢
      simp only [joinNL]
      rw [hrec]
      simp [List.append_assoc]

theorem flatten_ne_nil_of_head (b : List Str) (bs : List (List Str)) (hb : b ≠ []) :
    (b :: bs).flatten ≠ [] := by
  simp only [List.flatten_cons]
  intro h
  rcases List.append_eq_nil.mp h with ⟨h1, _⟩
  exact hb h1

theorem joinNL_map_flatten (blocks : List (List Str))
    (h : ∀ b ∈ blocks, b ≠ []) :
    joinNL (blocks.map joinNL) = joinNL blocks.flatten := by
  induction blocks with
  | nil => rfl
  | cons b bs ih =>
    have hb : b ≠ [] := h b (by simp)
    have hbs : ∀ x ∈ bs, x ≠ [] := fun x hx => h x (by simp [hx])
    rcases bs with _ | ⟨b', bs'⟩
    · simp [joinNL]
    · have hb' : b' ≠ [] := hbs b' (by simp)
      rw [List.map_cons, joinNL_cons, List.flatten_cons,
        joinNL_append b ((b' :: bs').flatten) hb (flatten_ne_nil_of_head b' bs' hb'),
        ih hbs]
      simp

theorem chunk_no_headers_flatten (m : Nat) (ls : List Str) :
    ∀ cur size, (chunk_no_headers m ls cur size).flatten = cur ++ ls := by
  induction ls with
  | nil =>
    intro cur size
    simp only [chunk_no_headers]
    rcases cur with _ | ⟨c, cs⟩ <;> simp
  | cons line rest ih =>
    intro cur size
    simp only [chunk_no_headers]
    split
    · simp [ih]
    · simp [ih]

theorem chunk_no_headers_ne_nil (m : Nat) (ls : List Str) :
    ∀ cur size b, b ∈ chunk_no_headers m ls cur size → b ≠ [] := by
  induction ls with
  | nil =>
    intro cur size b hb
    simp only [chunk_no_headers] at hb
    split at hb
    · simp at hb
    · rename_i hcur
      simp only [List.mem_singleton] at hb
      subst hb
      simpa [List.isEmpty_iff] using hcur
  | cons line rest ih =>
    intro cur size b hb
    simp only [chunk_no_headers] at hb
    split at hb
    · rename_i hcond
      rcases List.mem_cons.mp hb with h | h
      · subst h
        have := (Bool.and_eq_true _ _).mp hcond |>.2
        simpa [List.isEmpty_iff] using this
      · exact ih _ _ _ h
    · exact ih _ _ _ hb

theorem header_indices_eq_nil (lines : List Str)
    (h : lines.all (fun l => !is_header_line l) = true) :
    header_indices lines = [] := by
  rw [header_indices, List.filter_eq_nil_iff]
  intro i hi
  have hlt : i < lines.length := List.mem_range.mp hi
  have hmem : lines.getD i [] ∈ lines := by
    rw [List.getD_eq_getElem lines [] hlt]
    exact List.getElem_mem hlt
  have := List.all_eq_true.mp h _ hmem
  simpa using this

/-- C1 (amended), general part: on any text containing no `'# '`/`'## '`/`'### '`
heading line, `split_text_by_headers` succeeds for every chunk-size threshold
and joining its chunks with `'\n'` reconstructs the text. -/
theorem split_text_by_headers_no_header_reconstruction
    (text : Str) (max_size : Nat)
    (h : (splitLines text).all (fun l => !is_header_line l) = true) :
    ∃ blocks, split_text_by_headers text max_size = some blocks ∧
      joinNL blocks = text := by
  have hh := header_indices_eq_nil (splitLines text) h
  have hrec : joinNL ((chunk_no_headers max_size (splitLines text) [] 0).map joinNL) = text := by
    rw [joinNL_map_flatten _ (fun b hb => chunk_no_headers_ne_nil _ _ _ _ _ hb),
      chunk_no_headers_flatten, List.nil_append, joinNL_splitLines]
  refine ⟨(chunk_no_headers max_size (splitLines text) [] 0).map joinNL, ?_, hrec⟩
  rw [split_text_by_headers]
  simp only [hh, List.isEmpty_nil, if_pos, hrec, if_pos rfl]

/-- C1 counterexample: on the text `"\n# a"` with the positive chunk-size
threshold `3`, the reconstruction assertion of `split_text_by_headers` fires
(the whitespace-only block produced by backtracking is filtered out), so the
function does not return a chunk list joining back to the text. -/
theorem split_text_by_headers_assertion_counterexample :
    split_text_by_headers "\n# a".toList 3 = none := by decide

/-- C1 witness: concrete instance of the amended reconstruction theorem. -/
theorem split_text_by_headers_no_header_reconstruction_witness :
    ∃ blocks, split_text_by_headers "hello\nworld".toList 3 = some blocks ∧
      joinNL blocks = "hello\nworld".toList :=
  split_text_by_headers_no_header_reconstruction "hello\nworld".toList 3 (by decide)

/-! ## `utils.WebLLMClient.generate` (src/utils.py lines 81-137)

The HTTP boundary is abstracted: each loop iteration consumes one
`WebAttempt` describing what `requests.post` produced.  For a 200 response
the source returns the JSON-extracted `choices[0].message.content`, carried
here as the `content` field; JSON parsing itself is not modelled. -/

/-- Outcome of one `requests.post` call inside `WebLLMClient.generate`. -/
inductive WebAttempt where
  | resp (status : Nat) (body : Str) (content : Str)
  | exc (msg : Str)
deriving DecidableEq

/-- The exception text raised by the source for a non-200 response:
`"Rate limit exceeded: {text}"` for 429, `"HTTP {status}: {text}"` otherwise. -/
def web_error_msg (status : Nat) (body : Str) : Str :=
  if status = 429 then "Rate limit exceeded: ".toList ++ body
  else "HTTP ".toList ++ (toString status).toList ++ ": ".toList ++ body

/-- The error message of an attempt, `none` on success (status 200). -/
def attempt_error : WebAttempt → Option Str
  | .resp status body _ => if status = 200 then none else some (web_error_msg status body)
  | .exc m => some m

/-- The returned content of a successful attempt. -/
def attempt_content : WebAttempt → Str
  | .resp _ _ content => content
  | .exc _ => []

/-- `is_rate_limit = 'reach token limit' in error_msg` — the only rate-limit
test in `WebLLMClient.generate`. -/
def web_is_rate_limit (msg : Str) : Bool :=
  contains_sub msg "reach token limit".toList

/-- Sleep before the `retry_count`-th rate-limit retry:
`min(base_wait_time * (2 ** min(retry_count-1, 6)), 300)` with base 1.0. -/
def web_rl_wait (retry_count : Nat) : Nat :=
  min (2 ^ (min (retry_count - 1) 6)) 300

/-- The wait formula the specification states: `min(1.0 × 2^(retries-1), 300)`
(no cap on the exponent).  Used only to compare against `web_rl_wait`. -/
def claimed_rl_wait (retry_count : Nat) : Nat :=
  min (2 ^ (retry_count - 1)) 300

/-- The rate-limit classification the specification states: HTTP 429 status
or text containing "reach token limit".  Used only for comparison. -/
def claimed_is_rate_limit : WebAttempt → Bool
  | .resp status body _ => status == 429 || contains_sub body "reach token limit".toList
  | .exc m => contains_sub m "reach token limit".toList

/-- Result of running the retry loop over a finite prefix of attempts:
`running` means the loop has not terminated yet (it would retry further). -/
inductive GenOutcome where
  | returns (content : Str)
  | raises (msg : Str)
  | running
deriving DecidableEq

/-- Loop trace: final outcome plus the sequence of `time.sleep` durations. -/
structure GenTrace where
  outcome : GenOutcome
  sleeps : List Nat
deriving DecidableEq

/-- The `while True` retry loop of `WebLLMClient.generate`, consuming one
`WebAttempt` per iteration; `retry_count` is the shared retry counter
(`max_retries = 3`, `base_wait_time = 1.0` in the source). -/
def web_generate (model_name : Str) : List WebAttempt → Nat → GenTrace
  | [], _ => ⟨.running, []⟩
  | a :: rest, retry_count =>
    match attempt_error a with
    | none => ⟨.returns (attempt_content a), []⟩
    | some emsg =>
      if web_is_rate_limit emsg then
        let t := web_generate model_name rest (retry_count + 1)
        ⟨t.outcome, web_rl_wait (retry_count + 1) :: t.sleeps⟩
      else if retry_count + 1 ≤ 3 then
        let t := web_generate model_name rest (retry_count + 1)
        ⟨t.outcome, (retry_count + 1) :: t.sleeps⟩
      else
        ⟨.raises (model_name ++ "客户端调用最终失败: ".toList ++ emsg), []⟩

/-- C2 counterexample: a plain HTTP 429 response whose body does not contain
"reach token limit" is classified as a rate-limit by the specification's
rule, yet the loop raises after the bounded 3 retries; and the code's wait
formula caps the exponent at 6 (64 s at the 8th retry) where the
specification's formula gives 128 s. -/
theorem web_generate_rate_limit_counterexample :
    claimed_is_rate_limit (.resp 429 "Too Many Requests".toList []) = true ∧
    web_generate "gemini-2.5-pro".toList
        (List.replicate 4 (.resp 429 "Too Many Requests".toList [])) 0 =
      ⟨.raises ("gemini-2.5-pro".toList ++ "客户端调用最终失败: ".toList ++
        web_error_msg 429 "Too Many Requests".toList), [1, 2, 3]⟩ ∧
    web_rl_wait 8 = 64 ∧ claimed_rl_wait 8 = 128 := by
  refine ⟨by decide, by decide, by decide, by decide⟩

/-- C2 (amended): the loop retries unboundedly exactly when the error text
contains "reach token limit" (a 429 status is so treated only when its body
contains that phrase), sleeping `min(1.0 × 2^min(retries-1, 6), 300)` seconds
before the `retries`-th such retry; any other error is retried while the
shared counter stays ≤ 3, sleeping `1.0 × attempt` seconds, and is raised
once the counter exceeds 3 — so from a fresh counter, after exactly 3 linear
backoffs of 1, 2, 3 seconds. -/
theorem web_generate_retry_policy :
    (∀ (name msg : Str) (n retry_count : Nat), web_is_rate_limit msg = true →
      web_generate name (List.replicate n (.exc msg)) retry_count =
        ⟨.running, (List.range n).map (fun i => web_rl_wait (retry_count + i + 1))⟩) ∧
    (∀ (name msg : Str) (rest : List WebAttempt) (retry_count : Nat),
      web_is_rate_limit msg = false → 3 < retry_count + 1 →
      web_generate name (.exc msg :: rest) retry_count =
        ⟨.raises (name ++ "客户端调用最终失败: ".toList ++ msg), []⟩) ∧
    (∀ (name msg : Str) (n : Nat), web_is_rate_limit msg = false → 4 ≤ n →
      web_generate name (List.replicate n (.exc msg)) 0 =
        ⟨.raises (name ++ "客户端调用最终失败: ".toList ++ msg), [1, 2, 3]⟩) := by
  refine ⟨?_, ?_, ?_⟩
  · intro name msg n
    induction n with
    | zero => intro retry_count h; simp [web_generate]
    | succ n ih =>
      intro retry_count h
      rw [List.replicate_succ]
      simp only [web_generate, attempt_error, h, if_pos]
      rw [ih (retry_count + 1) h]
      simp only [List.range_succ_eq_map, List.map_cons, List.map_map, GenTrace.mk.injEq,
        Nat.add_zero, List.cons.injEq]
      refine ⟨trivial, trivial, ?_⟩
      apply List.map_congr_left
      intro i _
      simp only [Function.comp_apply]
      congr 1
      omega
  · intro name msg rest retry_count h hrc
    simp only [web_generate, attempt_error, h]
    rw [if_neg (by simp [h]), if_neg (by omega)]
  · intro name msg n h hn
    obtain ⟨k, rfl⟩ : ∃ k, n = 4 + k := ⟨n - 4, by omega⟩
    rw [List.replicate_add]
    simp only [List.replicate_succ, List.replicate_zero, List.cons_append, List.nil_append]
    simp [web_generate, attempt_error, h]

/-- C2 witness: concrete instances of the amended retry-policy theorem. -/
theorem web_generate_retry_policy_witness :
    web_generate "m".toList (List.replicate 2 (.exc "reach token limit".toList)) 0 =
      ⟨.running, (List.range 2).map (fun i => web_rl_wait (0 + i + 1))⟩ ∧
    web_generate "m".toList (List.replicate 4 (.exc "connection reset".toList)) 0 =
      ⟨.raises ("m".toList ++ "客户端调用最终失败: ".toList ++ "connection reset".toList),
        [1, 2, 3]⟩ :=
  ⟨web_generate_retry_policy.1 "m".toList "reach token limit".toList 2 0 (by decide),
   web_generate_retry_policy.2.2 "m".toList "connection reset".toList 4 (by decide) (by decide)⟩

/-! ## `infer.batch_infer.is_rate_limit_error` (src/infer/batch_infer.py lines 142-154) -/

/-- Python `s.lower()` (modelled for ASCII letters; the indicator strings at
stake are ASCII or already-lowercase Chinese). -/
def py_lower (s : Str) : Str := s.map Char.toLower

/-- The fixed `rate_limit_indicators` keyword list of the source. -/
def rate_limit_indicators : List Str :=
  ["rate limit", "rate_limit", "ratelimit",
   "429", "too many requests", "quota exceeded",
   "throttled", "throttling", "限流", "频率限制",
   "exceed", "maximum", "limit exceeded",
   "retry after", "retry-after", "请求过于频繁",
   "concurrent requests", "请稍后重试"].map String.toList

/-- `infer.batch_infer.is_rate_limit_error`. -/
def is_rate_limit_error (error_message : Str) : Bool :=
  rate_limit_indicators.any (fun ind => contains_sub (py_lower error_message) ind)

/-- C9: any error text containing (case-insensitively) "exceed" or "maximum"
is classified as a rate-limit error, and the keyword set is strictly broader
than the throttling-specific indicators: "maximum context length exceeded"
classifies as rate-limit while containing none of "rate limit", "429",
"too many requests", "quota exceeded". -/
theorem is_rate_limit_error_overbroad :
    (∀ msg : Str,
      (contains_sub (py_lower msg) "exceed".toList ||
        contains_sub (py_lower msg) "maximum".toList) = true →
      is_rate_limit_error msg = true) ∧
    (is_rate_limit_error "maximum context length exceeded".toList = true ∧
      contains_sub (py_lower "maximum context length exceeded".toList) "rate limit".toList = false ∧
      contains_sub (py_lower "maximum context length exceeded".toList) "429".toList = false ∧
      contains_sub (py_lower "maximum context length exceeded".toList) "too many requests".toList = false ∧
      contains_sub (py_lower "maximum context length exceeded".toList) "quota exceeded".toList = false) := by
  constructor
  · intro msg h
    rcases Bool.or_eq_true_iff.mp h with hx | hx
    · exact List.any_eq_true.mpr ⟨"exceed".toList, by decide, hx⟩
    · exact List.any_eq_true.mpr ⟨"maximum".toList, by decide, hx⟩
  · exact ⟨by decide, by decide, by decide, by decide, by decide⟩

/-- C9 witness: concrete instance of the classification theorem. -/
theorem is_rate_limit_error_overbroad_witness :
    (contains_sub (py_lower "Maximum context length Exceeded".toList) "exceed".toList ||
      contains_sub (py_lower "Maximum context length Exceeded".toList) "maximum".toList) = true ∧
    is_rate_limit_error "Maximum context length Exceeded".toList = true :=
  ⟨by decide, is_rate_limit_error_overbroad.1 "Maximum context length Exceeded".toList (by decide)⟩

/-! ## `infer.batch_infer.batch_infer_parallel` task enqueueing (lines 364-432)

The resume mechanism is modelled at the task-identity level: a CSV row is its
dataframe index plus its prompt-column cell (`none` models NaN), an existing
result-file record is its `(row_index, model_name)` pair, and a queued task
is identified by its `(row_index, model_name)` pair. -/

structure InferRow where
  idx : Nat
  prompt : Option Str
deriving DecidableEq

/-- `pd.isna(prompt) or not str(prompt).strip()` — rows skipped as empty. -/
def is_blank_prompt : Option Str → Bool
  | none => true
  | some s => !py_nonblank s

/-- Lines 369-376: the already-processed set is loaded only when the output
file exists *and* `start_idx > 0`. -/
def load_processed_items (file_exists : Bool) (start_idx : Nat)
    (records : List (Nat × Str)) : List (Nat × Str) :=
  if file_exists && decide (0 < start_idx) then records else []

/-- Lines 382-423: for every row at or after `start_idx` with a non-blank
prompt and every available model, enqueue `(idx, model_name)` unless that
pair is in the processed set. -/
def build_tasks (rows : List InferRow) (models : List Str) (start_idx : Nat)
    (processed : List (Nat × Str)) : List (Nat × Str) :=
  rows.flatMap (fun r =>
    if r.idx < start_idx then []
    else if is_blank_prompt r.prompt then []
    else (models.filter (fun m => !(decide ((r.idx, m) ∈ processed)))).map
      (fun m => (r.idx, m)))

/-- The tasks enqueued by `batch_infer_parallel`. -/
def batch_infer_tasks (rows : List InferRow) (models : List Str) (start_idx : Nat)
    (records : List (Nat × Str)) (file_exists : Bool) : List (Nat × Str) :=
  build_tasks rows models start_idx (load_processed_items file_exists start_idx records)

theorem mem_build_tasks (rows : List InferRow) (models : List Str)
    (start_idx : Nat) (processed : List (Nat × Str)) (i : Nat) (m : Str) :
    (i, m) ∈ build_tasks rows models start_idx processed ↔
      (∃ r ∈ rows, r.idx = i ∧ start_idx ≤ i ∧ is_blank_prompt r.prompt = false) ∧
        m ∈ models ∧ (i, m) ∉ processed := by
  constructor
  · intro h
    rcases List.mem_flatMap.mp h with ⟨r, hr, hm⟩
    by_cases h1 : r.idx < start_idx
    · simp [h1] at hm
    · by_cases h2 : is_blank_prompt r.prompt
      · simp [h1, h2] at hm
      · rw [if_neg h1, if_neg (by simpa using h2)] at hm
        rcases List.mem_map.mp hm with ⟨m', hm', heq⟩
        rcases Prod.mk.injEq .. ▸ heq with ⟨hidx, hmm⟩
        subst hmm
        rcases List.mem_filter.mp hm' with ⟨hmem, hdec⟩
        refine ⟨⟨r, hr, hidx, by omega, by simpa using h2⟩, hmem, ?_⟩
        rw [hidx] at hdec
        simpa using hdec
  · rintro ⟨⟨r, hr, hidx, hge, hblank⟩, hmem, hproc⟩
    apply List.mem_flatMap.mpr
    refine ⟨r, hr, ?_⟩
    rw [if_neg (by omega), if_neg (by simp [hblank])]
    apply List.mem_map.mpr
    refine ⟨m, List.mem_filter.mpr ⟨hmem, by simp [hidx, hproc]⟩, by simp [hidx]⟩

/-- C3 counterexample: the output file exists and already records
`(row_index=3, model_name="M")`, yet with `start_idx = 0` the processed set
is never loaded (lines 369: `if output_file.exists() and start_idx > 0`),
so the exact pair is enqueued again. -/
theorem batch_infer_start0_counterexample :
    (3, "M".toList) ∈ batch_infer_tasks [⟨3, some "p".toList⟩] ["M".toList] 0
      [(3, "M".toList)] true := by decide

/-- C3 (amended): with an existing result file and a *positive* `start_idx`
(≤ 3 so that row 3 is still in range), re-running enqueues no task for the
recorded pair `(3, M)` while still enqueueing `(3, other)` when absent from
the file; with `start_idx = 0` the file is ignored and `(3, M)` is enqueued
again. -/
theorem batch_infer_resume (rows : List InferRow) (models : List Str)
    (records : List (Nat × Str)) (start_idx : Nat) (M other : Str)
    (hstart : 0 < start_idx) (hstart3 : start_idx ≤ 3)
    (hM : (3, M) ∈ records) (hother : (3, other) ∉ records)
    (hrow : ∃ r ∈ rows, r.idx = 3 ∧ is_blank_prompt r.prompt = false)
    (hmodels : other ∈ models) :
    (3, M) ∉ batch_infer_tasks rows models start_idx records true ∧
    (3, other) ∈ batch_infer_tasks rows models start_idx records true := by
  have hproc : load_processed_items true start_idx records = records := by
    simp [load_processed_items, hstart]
  constructor
  · intro hmem
    rw [batch_infer_tasks, hproc] at hmem
    exact ((mem_build_tasks _ _ _ _ 3 M).mp hmem).2.2 hM
  · rw [batch_infer_tasks, hproc]
    refine (mem_build_tasks _ _ _ _ 3 other).mpr ⟨?_, hmodels, hother⟩
    obtain ⟨r, hr, h3, hb⟩ := hrow
    exact ⟨r, hr, h3, by omega, hb⟩

/-- C3 witness: concrete instance of the amended resumability theorem. -/
theorem batch_infer_resume_witness :
    (3, "M".toList) ∉ batch_infer_tasks [⟨3, some "p".toList⟩]
      ["M".toList, "N".toList] 1 [(3, "M".toList)] true ∧
    (3, "N".toList) ∈ batch_infer_tasks [⟨3, some "p".toList⟩]
      ["M".toList, "N".toList] 1 [(3, "M".toList)] true :=
  batch_infer_resume [⟨3, some "p".toList⟩] ["M".toList, "N".toList]
    [(3, "M".toList)] 1 "M".toList "N".toList (by decide) (by decide)
    (by decide) (by decide) (by decide) (by decide)

/-! ## `statement.verify_no_citations_web` vote aggregation
(src/statement/verify_no_citations_web.py lines 243-285)

Python float division is modelled with exact rationals (`ℚ`): the claim is
about which numerator/denominator the code computes, not float rounding. -/

/-- A `decision` cell of the detailed verification table: a real boolean, a
string, or any other value (coerced by `bool(...)`, carried as its truthiness). -/
inductive Decision where
  | boolD (b : Bool)
  | strD (s : Str)
  | otherD (truthy : Bool)
deriving DecidableEq

/-- Lines 246-255: coercion of a decision cell to a boolean vote;
a string counts as true iff its lowercase form is one of
`'true'`, `'正确'`, `'yes'`, `'1'`. -/
def coerce_decision : Decision → Bool
  | .boolD b => b
  | .strD s => decide (py_lower s ∈ (["true", "正确", "yes", "1"].map String.toList))
  | .otherD t => t

/-- The per-statement final record (statement text and concatenated reasons
omitted; they do not affect the vote outcome). -/
structure VoteFinal where
  true_votes : Nat
  false_votes : Nat
  total_votes : Nat
  final_decision : Str
  confidence : ℚ
deriving DecidableEq

/-- Lines 257-285: count the votes of one statement and derive the majority
decision and winning-fraction confidence. -/
def aggregate_votes (decisions : List Decision) : VoteFinal :=
  let boolean_decisions := decisions.map coerce_decision
  let true_votes := boolean_decisions.countP (fun b => b)
  let false_votes := boolean_decisions.length - true_votes
  let total_valid_votes := boolean_decisions.length
  if false_votes > true_votes then
    ⟨true_votes, false_votes, total_valid_votes, "错误".toList,
      if total_valid_votes > 0 then (false_votes : ℚ) / total_valid_votes else 0⟩
  else if true_votes > false_votes then
    ⟨true_votes, false_votes, total_valid_votes, "正确".toList,
      if total_valid_votes > 0 then (true_votes : ℚ) / total_valid_votes else 0⟩
  else
    ⟨true_votes, false_votes, total_valid_votes, "平局".toList, 1/2⟩

/-- C4: for a statement with 6 collected votes, strict true-majority gives
"正确" with confidence `true_votes/6`, strict false-majority gives "错误"
with confidence `false_votes/6`, and equal counts give "平局" with
confidence exactly 1/2. -/
theorem aggregate_votes_majority (decisions : List Decision)
    (h : decisions.length = 6) :
    ((aggregate_votes decisions).false_votes < (aggregate_votes decisions).true_votes →
      (aggregate_votes decisions).final_decision = "正确".toList ∧
      (aggregate_votes decisions).confidence = ((aggregate_votes decisions).true_votes : ℚ) / 6) ∧
    ((aggregate_votes decisions).true_votes < (aggregate_votes decisions).false_votes →
      (aggregate_votes decisions).final_decision = "错误".toList ∧
      (aggregate_votes decisions).confidence = ((aggregate_votes decisions).false_votes : ℚ) / 6) ∧
    ((aggregate_votes decisions).true_votes = (aggregate_votes decisions).false_votes →
      (aggregate_votes decisions).final_decision = "平局".toList ∧
      (aggregate_votes decisions).confidence = 1 / 2) := by
  have hlen : (decisions.map coerce_decision).length = 6 := by simp [h]
  have hcount := List.countP_le_length (p := fun b => b) (l := decisions.map coerce_decision)
  rw [hlen] at hcount
  simp only [aggregate_votes, hlen]
  split
  · rename_i hgt
    refine ⟨?_, ?_, ?_⟩
    · intro hc; dsimp only at hc; omega
    · intro _; exact ⟨rfl, by norm_num⟩
    · intro hc; dsimp only at hc; omega
  · rename_i hng
    split
    · rename_i hgt
      refine ⟨?_, ?_, ?_⟩
      · intro _; exact ⟨rfl, by norm_num⟩
      · intro hc; dsimp only at hc; omega
      · intro hc; dsimp only at hc; omega
    · rename_i hgt2
      refine ⟨?_, ?_, ?_⟩
      · intro hc; dsimp only at hc; omega
      · intro hc; dsimp only at hc; omega
      · intro _; exact ⟨rfl, rfl⟩

/-- C4 witness: four true votes and two false votes out of six. -/
theorem aggregate_votes_majority_witness :
    (aggregate_votes [.boolD true, .boolD true, .boolD true, .boolD true,
        .boolD false, .boolD false]).final_decision = "正确".toList ∧
    (aggregate_votes [.boolD true, .boolD true, .boolD true, .boolD true,
        .boolD false, .boolD false]).confidence =
      ((aggregate_votes [.boolD true, .boolD true, .boolD true, .boolD true,
        .boolD false, .boolD false]).true_votes : ℚ) / 6 :=
  (aggregate_votes_majority [.boolD true, .boolD true, .boolD true, .boolD true,
    .boolD false, .boolD false] (by decide)).1 (by decide)

/-! ## `cache_utils` (src/cache_utils.py)

`random.choice` draws are modelled by an explicit supply of candidate ids
(`supply : Nat → Str`) consumed in order, with fuel bounding the
probability-zero unbounded collision loop; `none` models that loop never
finding a fresh id within the fuel. -/

/-- `urllib.parse.urlparse`, modelled for the common absolute-URL shape:
scheme before `"://"`, netloc up to the first `/`, `?` or `#`, path up to
the first `?` or `#`. -/
def url_split_scheme (u : Str) : Str × Str :=
  match find_from u "://".toList 0 with
  | some i => (u.take i, u.drop (i + 3))
  | none => ([], u)

/-- `cache_utils.normalize_url`: `f"{parsed.scheme}://{parsed.netloc}{parsed.path}"`,
discarding query string and fragment. -/
def normalize_url (u : Str) : Str :=
  let sr := url_split_scheme u
  let netloc := sr.2.takeWhile (fun c => c != '/' && c != '?' && c != '#')
  let path := (sr.2.drop netloc.length).takeWhile (fun c => c != '?' && c != '#')
  sr.1 ++ "://".toList ++ netloc ++ path

/-- One row of the URL cache table (`url, normalized_url, random_id`). -/
structure UrlRow where
  url : Str
  normalized_url : Str
  random_id : Str
deriving DecidableEq

/-- The `while random_id in url_cache['random_id'].values` regeneration loop:
take the first supplied candidate not already used. -/
def pick_fresh_aux (supply : Nat → Str) (used : List Str) : Nat → Nat → Option Str
  | _, 0 => none
  | k, fuel + 1 =>
    if supply k ∈ used then pick_fresh_aux supply used (k + 1) fuel else some (supply k)

def generate_unique_id (supply : Nat → Str) (used : List Str) (fuel : Nat) : Option Str :=
  pick_fresh_aux supply used 0 fuel

/-- `cache_utils.get_or_create_id_for_url`: return the `random_id` of the
first row matching the normalized URL, else append a fresh row (keeping the
original URL) and return its new id together with the updated table. -/
def get_or_create_id_for_url (url : Str) (url_cache : List UrlRow)
    (supply : Nat → Str) (fuel : Nat) : Option (Str × List UrlRow) :=
  let normalized := normalize_url url
  match url_cache.find? (fun r => decide (r.normalized_url = normalized)) with
  | some r => some (r.random_id, url_cache)
  | none =>
    match generate_unique_id supply (url_cache.map (fun r => r.random_id)) fuel with
    | some rid => some (rid, url_cache ++ [⟨url, normalized, rid⟩])
    | none => none

/-- C5: get-or-create called twice in sequence (threading the updated table)
returns the same id both times, leaves the table unchanged on the second
call, and grows the table by exactly one row on the first call when no row
with the URL's normalized form existed (zero rows otherwise). -/
theorem get_or_create_id_idempotent (url : Str) (url_cache : List UrlRow)
    (supply supply' : Nat → Str) (fuel fuel' : Nat) (rid : Str) (cache' : List UrlRow)
    (h : get_or_create_id_for_url url url_cache supply fuel = some (rid, cache')) :
    get_or_create_id_for_url url cache' supply' fuel' = some (rid, cache') ∧
    cache'.length = url_cache.length +
      (if (url_cache.find? (fun r =>
          decide (r.normalized_url = normalize_url url))).isSome then 0 else 1) := by
  cases hfind : url_cache.find? (fun r => decide (r.normalized_url = normalize_url url)) with
  | some r =>
    simp only [get_or_create_id_for_url, hfind, Option.some.injEq, Prod.mk.injEq] at h
    obtain ⟨h1, h2⟩ := h
    subst h1; subst h2
    refine ⟨?_, by simp [hfind]⟩
    simp only [get_or_create_id_for_url, hfind]
  | none =>
    simp only [get_or_create_id_for_url, hfind] at h
    cases hgen : generate_unique_id supply (url_cache.map (fun r => r.random_id)) fuel with
    | none => rw [hgen] at h; exact absurd h (by simp)
    | some id0 =>
      rw [hgen] at h
      simp only [Option.some.injEq, Prod.mk.injEq] at h
      obtain ⟨h1, h2⟩ := h
      subst h1; subst h2
      refine ⟨?_, by simp [hfind]⟩
      simp only [get_or_create_id_for_url, List.find?_append, hfind, Option.none_or]
      simp [List.find?]

/-- C5 witness: concrete second call on the table produced by a first call
from the empty table. -/
theorem get_or_create_id_idempotent_witness :
    get_or_create_id_for_url "https://a.com/x?y=1".toList
        [⟨"https://a.com/x?y=1".toList, "https://a.com/x".toList, "abc123XYZ0".toList⟩]
        (fun _ => "zzzzzzzzzz".toList) 0 =
      some ("abc123XYZ0".toList,
        [⟨"https://a.com/x?y=1".toList, "https://a.com/x".toList, "abc123XYZ0".toList⟩]) ∧
    ([⟨"https://a.com/x?y=1".toList, "https://a.com/x".toList, "abc123XYZ0".toList⟩] :
        List UrlRow).length =
      ([] : List UrlRow).length + (if (([] : List UrlRow).find? (fun r =>
        decide (r.normalized_url = normalize_url "https://a.com/x?y=1".toList))).isSome
        then 0 else 1) :=
  get_or_create_id_idempotent "https://a.com/x?y=1".toList []
    (fun _ => "abc123XYZ0".toList) (fun _ => "zzzzzzzzzz".toList) 1 0
    "abc123XYZ0".toList _ (by decide)

/-! ## `process.process_json.process_openai_json` (src/process/process_json.py)

A transcript message is its `role` (absent key modelled as `none`) and its
`content` (already defaulted to `''` by `message.get('content', '')`).
File reading and the catch-all `except` are outside the model: the claim is
about the extraction rules on a parsed `messages` array. -/

structure Message where
  role : Option Str
  content : Str
deriving DecidableEq

def is_assistant_msg (m : Message) : Bool := decide (m.role = some "assistant".toList)

def is_user_msg (m : Message) : Bool := decide (m.role = some "user".toList)

/-- Lines 44-47: content of the first message with role "user" (`''` if none). -/
def first_user_prompt : List Message → Str
  | [] => []
  | m :: rest => if is_user_msg m then m.content else first_user_prompt rest

/-- Lines 66-74: the operative answer extraction — scan left-to-right for the
first index `i` with `messages[i]` and `messages[i+1]` both assistant, and
take `messages[i+1]`'s content (`''` if no such pair). -/
def consecutive_answer : List Message → Str
  | m1 :: m2 :: rest =>
    if is_assistant_msg m1 && is_assistant_msg m2 then m2.content
    else consecutive_answer (m2 :: rest)
  | _ => []

structure OpenAiResult where
  prompt : Str
  answer : Str
  activity : Str
  reference : Str
deriving DecidableEq

/-- `process_openai_json` on a parsed transcript: `messages` plus the
(`''`-defaulted) top-level `activity`/`reference` fields. -/
def process_openai_json (messages : List Message) (activity reference : Str) : OpenAiResult :=
  ⟨first_user_prompt messages, consecutive_answer messages, activity, reference⟩

/-- Spec-side definition, from the claim's wording: the first left-to-right
maximal run of two-or-more consecutive assistant messages. -/
def spec_first_assistant_run2 : List Message → Option (List Message)
  | [] => none
  | m :: rest =>
    if is_assistant_msg m then
      if 2 ≤ (m :: rest.takeWhile is_assistant_msg).length then
        some (m :: rest.takeWhile is_assistant_msg)
      else
        spec_first_assistant_run2 (rest.dropWhile is_assistant_msg)
    else
      spec_first_assistant_run2 rest
termination_by l => l.length
decreasing_by
  · have := (List.dropWhile_sublist is_assistant_msg (l := rest)).length_le
    simp only [List.length_cons]
    omega
  · simp

/-- Spec-side answer: content of the second message of the first run of ≥ 2
consecutive assistant messages, `''` when no such run exists. -/
def spec_answer (ms : List Message) : Str :=
  match spec_first_assistant_run2 ms with
  | some run => ((run[1]?).map (fun m => m.content)).getD []
  | none => []

/-- Spec-side prompt: content of the first message with role "user". -/
def spec_prompt (ms : List Message) : Str :=
  ((ms.find? is_user_msg).map (fun m => m.content)).getD []

theorem first_user_prompt_eq (ms : List Message) :
    first_user_prompt ms = spec_prompt ms := by
  induction ms with
  | nil => rfl
  | cons m rest ih =>
    by_cases h : is_user_msg m
    · simp [first_user_prompt, spec_prompt, List.find?_cons_of_pos _ h, h]
    · simp only [first_user_prompt, if_neg h, spec_prompt,
        List.find?_cons_of_neg _ h] at ih ⊢
      exact ih

theorem consecutive_answer_eq (ms : List Message) :
    consecutive_answer ms = spec_answer ms := by
  have H : ∀ n ms, List.length ms ≤ n → consecutive_answer ms = spec_answer ms := by
    intro n
    induction n with
    | zero =>
      intro ms hle
      have : ms = [] := List.eq_nil_of_length_eq_zero (by omega)
      subst this
      simp [consecutive_answer, spec_answer, spec_first_assistant_run2]
    | succ n ih =>
      intro ms hle
      match ms with
      | [] => simp [consecutive_answer, spec_answer, spec_first_assistant_run2]
      | [m] =>
        by_cases h : is_assistant_msg m
        · simp [consecutive_answer, spec_answer, spec_first_assistant_run2, h]
        · simp [consecutive_answer, spec_answer, spec_first_assistant_run2, h]
      | m1 :: m2 :: rest =>
        have hlen : (m2 :: rest).length ≤ n := by
          simp only [List.length_cons] at hle ⊢
          omega
        by_cases h1 : is_assistant_msg m1
        · by_cases h2 : is_assistant_msg m2
          · simp [consecutive_answer, spec_answer, spec_first_assistant_run2, h1, h2,
              List.takeWhile_cons_of_pos]
          · have hfr : spec_first_assistant_run2 (m1 :: m2 :: rest) =
                spec_first_assistant_run2 (m2 :: rest) := by
              rw [spec_first_assistant_run2]
              simp [h1, h2, List.takeWhile_cons_of_neg, List.dropWhile_cons_of_neg]
            have hcode : consecutive_answer (m1 :: m2 :: rest) =
                consecutive_answer (m2 :: rest) := by
              simp [consecutive_answer, h2]
            rw [hcode, ih (m2 :: rest) hlen]
            simp only [spec_answer, hfr]
        · have hfr : spec_first_assistant_run2 (m1 :: m2 :: rest) =
              spec_first_assistant_run2 (m2 :: rest) := by
            rw [spec_first_assistant_run2]
            simp [h1]
          have hcode : consecutive_answer (m1 :: m2 :: rest) =
              consecutive_answer (m2 :: rest) := by
            simp [consecutive_answer, h1]
          rw [hcode, ih (m2 :: rest) hlen]
          simp only [spec_answer, hfr]
  exact H ms.length ms le_rfl

/-- C7: the extractor sets `prompt` to the first user message's content and
`answer` to the content of the second message of the first left-to-right run
of two-or-more consecutive assistant messages; with no such run, `answer`
stays empty. -/
theorem process_openai_json_extraction (messages : List Message)
    (activity reference : Str) :
    (process_openai_json messages activity reference).prompt = spec_prompt messages ∧
    (process_openai_json messages activity reference).answer = spec_answer messages :=
  ⟨first_user_prompt_eq messages, consecutive_answer_eq messages⟩

/-! ## `process.extract_reference_structured` (src/process/extract_reference_structured.py)

BeautifulSoup parsing is abstracted: `html` is the serialized document
(`str(soup)`) and `links` the `soup.find_all('a', href=True)` result, each
link carrying its serialization `str(link)`, its `href` value, the stripped
texts of its nested `<div>`s, and its stripped full text.  The boundary
search `soup.find(string=re.compile(r'全部来源|All Sources'))` is modelled
as substring containment of either marker in the document. -/

structure RefLink where
  serial : Str
  href : Str
  divs : List Str
  text : Str
deriving DecidableEq

structure DetailedRef where
  index : Nat
  domain : Str
  url : Str
  title : Str
  description : Str
deriving DecidableEq

structure DomainInfo where
  index : Nat
  domain : Str
  href : Str
  count : Nat
deriving DecidableEq

structure RefResult where
  detailed_references : List DetailedRef
  domain_summary : List DomainInfo
deriving DecidableEq

/-- `urlparse(href).netloc` under the URL model of `url_split_scheme`. -/
def url_netloc (u : Str) : Str :=
  (url_split_scheme u).2.takeWhile (fun c => c != '/' && c != '?' && c != '#')

/-- Numeric value of a digit run (`int(...)` on the regex group). -/
def digits_to_nat (ds : Str) : Nat :=
  ds.foldl (fun acc c => acc * 10 + (c.toNat - '0'.toNat)) 0

/-- `extract_detailed_reference_simple`: domain from the URL host, title and
description from the 2nd/3rd nested div (3+ divs), the 1st/2nd (exactly 2),
or a 100-char-truncated / whole text fallback. -/
def extract_detailed_reference_simple (link : RefLink) (index : Nat) : Option DetailedRef :=
  if link.href.isEmpty then none
  else
    let td : Str × Str :=
      if 3 ≤ link.divs.length then (link.divs.getD 1 [], link.divs.getD 2 [])
      else if link.divs.length = 2 then (link.divs.getD 0 [], link.divs.getD 1 [])
      else
        (if 100 < link.text.length then link.text.take 100 ++ "...".toList else link.text,
          link.text)
    some ⟨index, url_netloc link.href, link.href, td.1, td.2⟩

/-- `extract_domain_info_simple`: display text as domain, with a trailing
digit run (regex `(\d+)$`) stripped and parsed as the count, default 1. -/
def extract_domain_info_simple (link : RefLink) (index : Nat) : Option DomainInfo :=
  if link.href.isEmpty then none
  else
    let digits := (link.text.reverse.takeWhile Char.isDigit).reverse
    if digits.isEmpty then some ⟨index, link.text, link.href, 1⟩
    else some ⟨index, link.text.take (link.text.length - digits.length), link.href,
      digits_to_nat digits⟩

/-- Whether the boundary-marker text is present (the `soup.find(string=...)`
test of lines 58-62). -/
def marker_found (html : Str) : Bool :=
  contains_sub html "全部来源".toList || contains_sub html "All Sources".toList

/-- Lines 70-73: `html_str.find('全部来源')`, falling back to
`html_str.find('All Sources')` when the former is `-1`. -/
def source_position (html : Str) : Int :=
  if str_find html "全部来源".toList = -1 then str_find html "All Sources".toList
  else str_find html "全部来源".toList

/-- Lines 79-90: classify one link by comparing its serialized position with
the boundary position, appending to the matching list with a 1-based index. -/
def ref_split_step (html : Str) (acc : RefResult) (link : RefLink) : RefResult :=
  if str_find html link.serial < source_position html then
    match extract_detailed_reference_simple link (acc.detailed_references.length + 1) with
    | some r => ⟨acc.detailed_references ++ [r], acc.domain_summary⟩
    | none => acc
  else
    match extract_domain_info_simple link (acc.domain_summary.length + 1) with
    | some d => ⟨acc.detailed_references, acc.domain_summary ++ [d]⟩
    | none => acc

/-- `extract_reference_structured` on a parsed reference fragment.  An empty
fragment and a fragment without the boundary marker both yield `none`. -/
def extract_reference_structured (html : Str) (links : List RefLink) : Option RefResult :=
  if html.isEmpty then none
  else if !marker_found html then none
  else some (links.foldl (ref_split_step html) ⟨[], []⟩)

theorem extract_detailed_isSome (l : RefLink) (idx : Nat) (h : l.href ≠ []) :
    ∃ r, extract_detailed_reference_simple l idx = some r := by
  have hfalse : l.href.isEmpty = false := by simpa [List.isEmpty_iff] using h
  simp only [extract_detailed_reference_simple, hfalse, Bool.false_eq_true, if_false]
  exact ⟨_, rfl⟩

theorem extract_domain_eq (l : RefLink) (idx : Nat) (h : l.href ≠ []) :
    extract_domain_info_simple l idx = some
      ⟨idx,
        (if (l.text.reverse.takeWhile Char.isDigit).isEmpty then l.text
          else l.text.take (l.text.length - (l.text.reverse.takeWhile Char.isDigit).length)),
        l.href,
        (if (l.text.reverse.takeWhile Char.isDigit).isEmpty then 1
          else digits_to_nat (l.text.reverse.takeWhile Char.isDigit).reverse)⟩ := by
  have hfalse : l.href.isEmpty = false := by simpa [List.isEmpty_iff] using h
  simp only [extract_domain_info_simple, hfalse, Bool.false_eq_true, if_false]
  by_cases hdig : ((l.text.reverse.takeWhile Char.isDigit).reverse).isEmpty
  · have hdig' : (l.text.reverse.takeWhile Char.isDigit).isEmpty = true := by
      simpa using hdig
    simp [hdig, hdig']
  · have hdig' : (l.text.reverse.takeWhile Char.isDigit).isEmpty = false := by
      simpa using hdig
    simp only [hdig, hdig', Bool.false_eq_true, if_false]
    simp

/-- Trailing-digit-run count of a display text, as the claim states it. -/
def trailing_digit_count (t : Str) : Nat :=
  if (t.reverse.takeWhile Char.isDigit).isEmpty then 1
  else digits_to_nat (t.reverse.takeWhile Char.isDigit).reverse

theorem ref_split_foldl (html : Str) (links : List RefLink)
    (h : ∀ l ∈ links, l.href ≠ []) :
    ∀ d0 s0,
      ((links.foldl (ref_split_step html) ⟨d0, s0⟩).detailed_references.length =
        d0.length + (links.filter (fun l =>
          decide (str_find html l.serial < source_position html))).length) ∧
      ((links.foldl (ref_split_step html) ⟨d0, s0⟩).domain_summary.length =
        s0.length + (links.filter (fun l =>
          !decide (str_find html l.serial < source_position html))).length) ∧
      ((links.foldl (ref_split_step html) ⟨d0, s0⟩).domain_summary.map (fun d => d.count) =
        s0.map (fun d => d.count) ++ (links.filter (fun l =>
          !decide (str_find html l.serial < source_position html))).map
            (fun l => trailing_digit_count l.text)) := by
  induction links with
  | nil => intro d0 s0; simp
  | cons l ls ih =>
    intro d0 s0
    have hl : l.href ≠ [] := h l (by simp)
    have hls : ∀ x ∈ ls, x.href ≠ [] := fun x hx => h x (by simp [hx])
    rw [List.foldl_cons]
    by_cases hpos : str_find html l.serial < source_position html
    · obtain ⟨r, hr⟩ := extract_detailed_isSome l (d0.length + 1) hl
      have hstep : ref_split_step html ⟨d0, s0⟩ l = ⟨d0 ++ [r], s0⟩ := by
        simp [ref_split_step, if_pos hpos, hr]
      rw [hstep]
      obtain ⟨ih1, ih2, ih3⟩ := ih hls (d0 ++ [r]) s0
      refine ⟨?_, ?_, ?_⟩
      · rw [ih1, List.filter_cons_of_pos (by simpa using hpos)]
        simp
        omega
      · rw [ih2, List.filter_cons_of_neg (by simpa using hpos)]
      · rw [ih3, List.filter_cons_of_neg (by simpa using hpos)]
    · have hd := extract_domain_eq l (s0.length + 1) hl
      have hstep : ref_split_step html ⟨d0, s0⟩ l =
          ⟨d0, s0 ++ [⟨s0.length + 1,
            (if (l.text.reverse.takeWhile Char.isDigit).isEmpty then l.text
              else l.text.take (l.text.length -
                (l.text.reverse.takeWhile Char.isDigit).length)),
            l.href, trailing_digit_count l.text⟩]⟩ := by
        simp [ref_split_step, if_neg hpos, hd, trailing_digit_count]
      rw [hstep]
      obtain ⟨ih1, ih2, ih3⟩ := ih hls d0 (s0 ++ [_])
      refine ⟨?_, ?_, ?_⟩
      · rw [ih1, List.filter_cons_of_neg (by simpa using hpos)]
      · rw [ih2, List.filter_cons_of_pos (by simpa using hpos)]
        simp
        omega
      · rw [ih3, List.filter_cons_of_pos (by simpa using hpos)]
        simp [trailing_digit_count]

/-- C6: when the boundary marker is absent, `extract_reference_structured`
returns no result; when it is present, every link serialized before the
marker's position becomes a detailed reference and every other link a
domain-summary entry (so 3 links before / 2 after give exactly 3 and 2),
each domain-summary count parsed from a trailing digit run, default 1. -/
theorem extract_reference_structured_boundary :
    (∀ (html : Str) (links : List RefLink), marker_found html = false →
      extract_reference_structured html links = none) ∧
    (∀ (html : Str) (links : List RefLink), html ≠ [] → marker_found html = true →
      (∀ l ∈ links, l.href ≠ []) →
      ∃ r, extract_reference_structured html links = some r ∧
        r.detailed_references.length = (links.filter (fun l =>
          decide (str_find html l.serial < source_position html))).length ∧
        r.domain_summary.length = (links.filter (fun l =>
          !decide (str_find html l.serial < source_position html))).length ∧
        r.domain_summary.map (fun d => d.count) = (links.filter (fun l =>
          !decide (str_find html l.serial < source_position html))).map
            (fun l => trailing_digit_count l.text)) := by
  constructor
  · intro html links hmark
    simp [extract_reference_structured, hmark]
  · intro html links hne hmark hhref
    have hempty : html.isEmpty = false := by simpa [List.isEmpty_iff] using hne
    refine ⟨links.foldl (ref_split_step html) ⟨[], []⟩, ?_, ?_⟩
    · simp [extract_reference_structured, hempty, hmark]
    · simpa using ref_split_foldl html links hhref [] []

/-- Concrete reference fragment used by the C6 witness: three anchors before
the marker text, two after it, the last with a trailing digit run. -/
def sample_ref_html : Str :=
  "<a>A</a><a>B</a><a>C</a><div>全部来源</div><a>D</a><a>E2</a>".toList

def sample_ref_links : List RefLink :=
  [⟨"<a>A</a>".toList, "https://x.com/a".toList, [], "A".toList⟩,
   ⟨"<a>B</a>".toList, "https://y.com/b".toList, ["y.com".toList, "T".toList, "D".toList],
     "B".toList⟩,
   ⟨"<a>C</a>".toList, "https://z.com/c".toList, [], "C".toList⟩,
   ⟨"<a>D</a>".toList, "https://d.com".toList, [], "d.com".toList⟩,
   ⟨"<a>E2</a>".toList, "https://e.com".toList, [], "e.com2".toList⟩]

/-- C6 witness: on the concrete fragment the split yields exactly 3 detailed
references and 2 domain-summary entries with counts 1 and 2. -/
theorem extract_reference_structured_boundary_witness :
    (sample_ref_links.filter (fun l =>
      decide (str_find sample_ref_html l.serial < source_position sample_ref_html))).length
        = 3 ∧
    (sample_ref_links.filter (fun l =>
      !decide (str_find sample_ref_html l.serial < source_position sample_ref_html))).map
        (fun l => trailing_digit_count l.text) = [1, 2] ∧
    (∃ r, extract_reference_structured sample_ref_html sample_ref_links = some r ∧
      r.detailed_references.length = (sample_ref_links.filter (fun l =>
        decide (str_find sample_ref_html l.serial < source_position sample_ref_html))).length ∧
      r.domain_summary.length = (sample_ref_links.filter (fun l =>
        !decide (str_find sample_ref_html l.serial < source_position sample_ref_html))).length ∧
      r.domain_summary.map (fun d => d.count) = (sample_ref_links.filter (fun l =>
        !decide (str_find sample_ref_html l.serial < source_position sample_ref_html))).map
          (fun l => trailing_digit_count l.text)) :=
  ⟨by decide, by decide,
    extract_reference_structured_boundary.2 sample_ref_html sample_ref_links
      (by decide) (by decide) (by decide)⟩

/-! ## `metrics_calculator.calculate_file_metrics` (src/metrics_calculator.py lines 27-162)

The report directory is modelled by the states of the five CSV artifacts the
function reads: `absent` (the file is missing), `unreadable` (`pd.read_csv`
raises, e.g. a zero-byte file), or `table` with the data the function uses —
the row count for `citations.csv` / `no_citations.csv` / `matched.csv`, the
row count plus the optional boolean `match` column for `final.csv`, and the
row count plus the optional `final_decision` column for
`no_citations_web_final.csv`.  `arxiv_id` and the timestamp are not modelled;
rates use exact rationals. -/

inductive FileState (α : Type) where
  | absent
  | unreadable
  | table (data : α)
deriving DecidableEq

structure FinalCsv where
  nrows : Nat
  match_col : Option (List Bool)
deriving DecidableEq

structure WebFinalCsv where
  nrows : Nat
  final_decision_col : Option (List Str)
deriving DecidableEq

structure ReportDir where
  citations : FileState Nat
  no_citations : FileState Nat
  matched : FileState Nat
  final : FileState FinalCsv
  web_final : FileState WebFinalCsv

structure Metrics where
  total_citations : Nat
  total_no_citations : Nat
  total_statements : Nat
  matched_statements : Nat
  match_rate : ℚ
  aligned_statements : Nat
  alignment_rate : ℚ
  no_citations_correct : Nat
  no_citations_incorrect : Nat
  no_citations_tie : Nat
  no_citations_accuracy : ℚ
  has_citations : Bool
  has_no_citations : Bool
  has_matched : Bool
  has_final : Bool
  has_no_citations_verification : Bool
  missing_files : List Str
deriving DecidableEq

/-- The `metrics['missing_files'].append(name)` done when an optional file is
absent or fails to read. -/
def miss_entry {α : Type} (st : FileState α) (name : Str) : List Str :=
  match st with
  | .table _ => []
  | _ => [name]

/-- Row count and `has_*` flag of a simple optional CSV. -/
def count_table (st : FileState Nat) : Nat × Bool :=
  match st with
  | .table k => (k, true)
  | _ => (0, false)

/-- `aligned_statements`, `alignment_rate` and `has_final` from `final.csv`:
sum of the `match` column (0 when the column is absent), divided by the row
count when positive. -/
def final_stats (st : FileState FinalCsv) : Nat × ℚ × Bool :=
  match st with
  | .table f =>
    ((f.match_col.getD []).countP (fun b => b),
     if 0 < f.nrows then (((f.match_col.getD []).countP (fun b => b) : ℚ)) / f.nrows else 0,
     true)
  | _ => (0, 0, false)

/-- Correct/incorrect/tie counts, accuracy and flag from
`no_citations_web_final.csv`. -/
def web_stats (st : FileState WebFinalCsv) : Nat × Nat × Nat × ℚ × Bool :=
  match st with
  | .table w =>
    match w.final_decision_col with
    | some col =>
      (col.countP (fun s => decide (s = "正确".toList)),
       col.countP (fun s => decide (s = "错误".toList)),
       col.countP (fun s => decide (s = "平局".toList)),
       if 0 < w.nrows then ((col.countP (fun s => decide (s = "正确".toList)) : ℚ)) / w.nrows
         else 0,
       true)
    | none => (0, 0, 0, 0, true)
  | _ => (0, 0, 0, 0, false)

/-- `calculate_file_metrics`: `none` when `citations.csv` is absent or fails
to read; otherwise the per-report record, with each absent/unreadable
optional file appended to `missing_files` in source order. -/
def calculate_file_metrics (d : ReportDir) : Option Metrics :=
  match d.citations with
  | .absent => none
  | .unreadable => none
  | .table total_citations =>
    let noc := count_table d.no_citations
    let mat := count_table d.matched
    let fin := final_stats d.final
    let web := web_stats d.web_final
    some {
      total_citations := total_citations,
      total_no_citations := noc.1,
      total_statements := total_citations + noc.1,
      matched_statements := mat.1,
      match_rate :=
        if mat.2 && decide (0 < total_citations) then (mat.1 : ℚ) / total_citations else 0,
      aligned_statements := fin.1,
      alignment_rate := fin.2.1,
      no_citations_correct := web.1,
      no_citations_incorrect := web.2.1,
      no_citations_tie := web.2.2.1,
      no_citations_accuracy := web.2.2.2.1,
      has_citations := true,
      has_no_citations := noc.2,
      has_matched := mat.2,
      has_final := fin.2.2,
      has_no_citations_verification := web.2.2.2.2,
      missing_files :=
        miss_entry d.no_citations "no_citations.csv".toList ++
        miss_entry d.matched "matched.csv".toList ++
        miss_entry d.final "final.csv".toList ++
        miss_entry d.web_final "no_citations_web_final.csv".toList }

/-- C8: `calculate_file_metrics` returns no result (not a zeroed record)
when `citations.csv` is absent; when `citations.csv` is readable, each
individually absent optional file is appended to `missing_files` and the
computation still produces a record. -/
theorem calculate_file_metrics_skip_on_missing :
    (∀ d : ReportDir, d.citations = .absent → calculate_file_metrics d = none) ∧
    (∀ (d : ReportDir) (n : Nat), d.citations = .table n →
      ∃ m, calculate_file_metrics d = some m ∧
        (d.no_citations = .absent → "no_citations.csv".toList ∈ m.missing_files) ∧
        (d.matched = .absent → "matched.csv".toList ∈ m.missing_files) ∧
        (d.final = .absent → "final.csv".toList ∈ m.missing_files) ∧
        (d.web_final = .absent → "no_citations_web_final.csv".toList ∈ m.missing_files)) := by
  constructor
  · intro d h
    simp [calculate_file_metrics, h]
  · intro d n h
    refine ⟨_, by simp only [calculate_file_metrics, h]; rfl, ?_, ?_, ?_, ?_⟩ <;>
      intro habs <;> simp [miss_entry, habs, List.mem_append]

/-- C8 witness: `citations.csv` readable, all four optional files absent. -/
theorem calculate_file_metrics_skip_on_missing_witness :
    ∃ m, calculate_file_metrics ⟨.table 5, .absent, .absent, .absent, .absent⟩ = some m ∧
      ((⟨.table 5, .absent, .absent, .absent, .absent⟩ : ReportDir).no_citations = .absent →
        "no_citations.csv".toList ∈ m.missing_files) ∧
      ((⟨.table 5, .absent, .absent, .absent, .absent⟩ : ReportDir).matched = .absent →
        "matched.csv".toList ∈ m.missing_files) ∧
      ((⟨.table 5, .absent, .absent, .absent, .absent⟩ : ReportDir).final = .absent →
        "final.csv".toList ∈ m.missing_files) ∧
      ((⟨.table 5, .absent, .absent, .absent, .absent⟩ : ReportDir).web_final = .absent →
        "no_citations_web_final.csv".toList ∈ m.missing_files) :=
  calculate_file_metrics_skip_on_missing.2 ⟨.table 5, .absent, .absent, .absent, .absent⟩ 5 rfl

/-- C10: a `citations.csv` that exists but fails to parse also aborts the
whole record (`none`), exactly like an absent file, while the same parse
failure on any optional file only adds that file to `missing_files`. -/
theorem calculate_file_metrics_unreadable :
    (∀ d : ReportDir, d.citations = .unreadable → calculate_file_metrics d = none) ∧
    (∀ d : ReportDir, d.citations = .unreadable →
      calculate_file_metrics d =
        calculate_file_metrics ⟨.absent, d.no_citations, d.matched, d.final, d.web_final⟩) ∧
    (∀ (d : ReportDir) (n : Nat), d.citations = .table n →
      ∃ m, calculate_file_metrics d = some m ∧
        (d.no_citations = .unreadable → "no_citations.csv".toList ∈ m.missing_files) ∧
        (d.matched = .unreadable → "matched.csv".toList ∈ m.missing_files) ∧
        (d.final = .unreadable → "final.csv".toList ∈ m.missing_files) ∧
        (d.web_final = .unreadable →
          "no_citations_web_final.csv".toList ∈ m.missing_files)) := by
  refine ⟨?_, ?_, ?_⟩
  · intro d h
    simp [calculate_file_metrics, h]
  · intro d h
    simp [calculate_file_metrics, h]
  · intro d n h
    refine ⟨_, by simp only [calculate_file_metrics, h]; rfl, ?_, ?_, ?_, ?_⟩ <;>
      intro habs <;> simp [miss_entry, habs, List.mem_append]

/-- C10 witness: `citations.csv` readable, all four optional files
unreadable. -/
theorem calculate_file_metrics_unreadable_witness :
    ∃ m, calculate_file_metrics
        ⟨.table 5, .unreadable, .unreadable, .unreadable, .unreadable⟩ = some m ∧
      ((⟨.table 5, .unreadable, .unreadable, .unreadable, .unreadable⟩ :
          ReportDir).no_citations = .unreadable →
        "no_citations.csv".toList ∈ m.missing_files) ∧
      ((⟨.table 5, .unreadable, .unreadable, .unreadable, .unreadable⟩ :
          ReportDir).matched = .unreadable →
        "matched.csv".toList ∈ m.missing_files) ∧
      ((⟨.table 5, .unreadable, .unreadable, .unreadable, .unreadable⟩ :
          ReportDir).final = .unreadable →
        "final.csv".toList ∈ m.missing_files) ∧
      ((⟨.table 5, .unreadable, .unreadable, .unreadable, .unreadable⟩ :
          ReportDir).web_final = .unreadable →
        "no_citations_web_final.csv".toList ∈ m.missing_files) :=
  calculate_file_metrics_unreadable.2.2
    ⟨.table 5, .unreadable, .unreadable, .unreadable, .unreadable⟩ 5 rfl

end ReportBench
